import Mathlib

/-!
Verification of the AMPL solver-backend conversion/dispatch layer.

This file gives a shallow embedding, in Lean 4, of the status translation,
objective/constraint dispatch, option registry, and lifecycle/reporting
driver found in:

  src/include/mp/convert/backend.h   (BasicBackend, convert layer)
  src/include/mp/backend.h           (BasicBackend, older layer, Resolve)
  src/solvers/gurobidirect/gurobibackend.cc
  src/solvers/ilogcp/ilogcp.cpp
  src/solvers/util/solver.h          (Solver option machinery)

Theorems about these definitions settle the frozen specification claims.
-/

set_option autoImplicit false

namespace AmplMp

/-! ## Canonical solve codes (mp::sol)

The mp::sol enumeration header itself is not among the sources; only its
uses are.  The values below mirror the literal solve codes used for the
same statuses in src/solvers/ilogcp/ilogcp.cpp (optimal 0, feasible 100,
infeasible 200, infeasible-or-unbounded 201, unbounded 300, error 500,
unknown 501, interrupted 600), which agree with the arithmetic
sol::INFEASIBLE + 1 and sol::FAILURE + 1 performed in
gurobibackend.cc. -/

namespace sol

/-- Modelled from the spec: canonical solve code for Solved-Optimal (§3);
value taken from the literal 0 used in ilogcp.cpp. -/
def SOLVED : Int := 0

/-- Modelled from the spec: canonical solve code for Feasible-Uncertain;
value taken from the literal 100 used in ilogcp.cpp. -/
def UNCERTAIN : Int := 100

/-- Modelled from the spec: canonical solve code for Infeasible;
value taken from the literal 200 used in ilogcp.cpp. -/
def INFEASIBLE : Int := 200

/-- Modelled from the spec: canonical solve code for Unbounded;
value taken from the literal 300 used in ilogcp.cpp. -/
def UNBOUNDED : Int := 300

/-- Modelled from the spec: canonical solve code for Error/Failure;
value taken from the literal 500 used in ilogcp.cpp. -/
def FAILURE : Int := 500

/-- Modelled from the spec: canonical solve code for Interrupted;
value taken from the literal 600 used in ilogcp.cpp. -/
def INTERRUPTED : Int := 600

end sol

/-! ## GurobiBackend::ConvertSolutionStatus
(src/solvers/gurobidirect/gurobibackend.cc, lines 243-279) -/

/-- Native Gurobi optimization status, as discriminated by the switch in
GurobiBackend::ConvertSolutionStatus.  The explicitly handled cases are
GRB_OPTIMAL, GRB_INFEASIBLE, GRB_UNBOUNDED, GRB_INF_OR_UNBD and
GRB_NUMERIC; every other native code falls into the default branch,
represented here by the other constructor carrying the raw code. -/
inductive GrbStatus where
  | optimal
  | infeasible
  | unbounded
  | infOrUnbd
  | numeric
  | other (code : Int)
  deriving DecidableEq, Repr

/-- Result of status translation: the solve code written through the
by-reference parameter, and the returned message string. -/
structure StatusResult where
  solve_code : Int
  message : String
  deriving DecidableEq, Repr

/-- Shallow embedding of GurobiBackend::ConvertSolutionStatus.  The switch
on the native status is translated case by case; the interrupter test and
the solution-count test occur only inside the default branch, exactly as
in the source. -/
def ConvertSolutionStatus (interrupted : Bool) (status : GrbStatus)
    (solcount : Nat) : StatusResult :=
  match status with
  | .optimal => ⟨sol.SOLVED, "optimal solution"⟩
  | .infeasible => ⟨sol.INFEASIBLE, "infeasible problem"⟩
  | .unbounded => ⟨sol.UNBOUNDED, "unbounded problem"⟩
  | .infOrUnbd => ⟨sol.INFEASIBLE + 1, "infeasible or unbounded problem"⟩
  | .numeric => ⟨sol.FAILURE, "error"⟩
  | .other _ =>
      if interrupted then ⟨sol.INTERRUPTED, "interrupted"⟩
      else if 0 < solcount then ⟨sol.UNCERTAIN, "feasible solution"⟩
      else ⟨sol.FAILURE + 1, "unknown solution status"⟩

/-! ## IlogCPSolver::DoSolve status switch
(src/solvers/ilogcp/ilogcp.cpp, lines 731-776) -/

/-- Native IloAlgorithm status, as discriminated by the switch in
IlogCPSolver::DoSolve.  Unlisted native codes fall through to the
Unknown case in the source; the other constructor represents them. -/
inductive IloStatus where
  | unknown
  | feasible
  | optimal
  | infeasible
  | unbounded
  | infeasibleOrUnbounded
  | error
  | other (code : Int)
  deriving DecidableEq, Repr

/-- Shallow embedding of the status-conversion switch in
IlogCPSolver::DoSolve.  The interrupted test occurs only in the
Unknown/default and Feasible branches, exactly as in the source. -/
def IlogConvertStatus (interrupted : Bool) (status : IloStatus) : StatusResult :=
  match status with
  | .unknown | .other _ =>
      if interrupted then ⟨600, "interrupted"⟩
      else ⟨501, "unknown solution status"⟩
  | .feasible =>
      if interrupted then ⟨600, "interrupted"⟩
      else ⟨100, "feasible solution"⟩
  | .optimal => ⟨0, "optimal solution"⟩
  | .infeasible => ⟨200, "infeasible problem"⟩
  | .unbounded => ⟨300, "unbounded problem"⟩
  | .infeasibleOrUnbounded => ⟨201, "infeasible or unbounded problem"⟩
  | .error => ⟨500, "error"⟩

/-! ## Objective dispatch (BasicBackend::AddObjective,
src/include/mp/convert/backend.h, lines 129-154) -/

/-- Objective sense, mp::obj::Type. -/
inductive ObjSense where
  | MIN
  | MAX
  deriving DecidableEq, Repr

/-- Modelled from the spec: a QuadraticTerm-set (§3); three same-length
sequences (var1-index, var2-index, coefficient).  The concrete type qt_
lives in mp/convert/std_obj.h, which is not among the sources; the
backend code moves it around opaquely. -/
structure QuadTerms where
  vars1 : List Nat
  vars2 : List Nat
  coefs : List ℚ
  deriving DecidableEq, Repr

/-- Model::Objective as read by the backend: sense (type()), the linear
expression as a term list, the optional opaque nonlinear expression
handle, and the optional extra info carrying the quadratic term set. -/
structure Objective where
  sense : ObjSense
  linear_expr : List (ℚ × Nat)
  nonlinear_expr : Option Unit
  p_extra_info : Option QuadTerms
  deriving DecidableEq, Repr

/-- LinearObjective as built in AddObjective: the sense plus the
coefficient and variable-index vectors produced by the unzipper. -/
structure LinearObjective where
  sense : ObjSense
  coefs : List ℚ
  vars : List Nat
  deriving DecidableEq, Repr

/-- QuadraticObjective: the linear part plus the quadratic term set. -/
structure QuadraticObjective where
  lin : LinearObjective
  qt : QuadTerms
  deriving DecidableEq, Repr

/-- Merge a single term into an accumulated term list: if the variable
index is already present its coefficient is summed into place, otherwise
the term is appended, keeping first-occurrence order. -/
def mergeTerm (acc : List (ℚ × Nat)) (t : ℚ × Nat) : List (ℚ × Nat) :=
  if acc.any (fun p => p.2 = t.2) then
    acc.map (fun p => if p.2 = t.2 then (p.1 + t.1, p.2) else p)
  else acc ++ [t]

/-- Modelled from the spec: the Expression Unzipper (§4.1) applied to a
purely linear expression, as class LinearExprUnzipper of
mp/convert/model.h, which is not among the sources.  It extracts
parallel coefficient/variable-index arrays with duplicates merged by
variable index (coefficients summed) in stable order. -/
def LinearExprUnzipper (terms : List (ℚ × Nat)) : List ℚ × List Nat :=
  let merged := terms.foldl mergeTerm []
  (merged.map Prod.fst, merged.map Prod.snd)

/-- Calls a backend can receive from BasicBackend::AddObjective. -/
inductive ObjDispatchCall where
  | generalObj (o : Objective)
  | linearObj (lo : LinearObjective)
  | quadraticObj (qo : QuadraticObjective)
  deriving DecidableEq, Repr

/-- Shallow embedding of BasicBackend::AddObjective
(mp/convert/backend.h, lines 129-145): a nonlinear expression dispatches
AddGeneralObjective; otherwise the linear expression is unzipped, and
the objective dispatches AddLinearObjective when no extra info is
attached, else AddQuadraticObjective carrying the linear part and the
attached quadratic term set. -/
def AddObjective (o : Objective) : List ObjDispatchCall :=
  match o.nonlinear_expr with
  | some _ => [.generalObj o]
  | none =>
      let leu := LinearExprUnzipper o.linear_expr
      let lo : LinearObjective := ⟨o.sense, leu.1, leu.2⟩
      match o.p_extra_info with
      | none => [.linearObj lo]
      | some qt => [.quadraticObj ⟨lo, qt⟩]

/-! ## Linear defining constraint rewrite and acceptance
(src/include/mp/convert/backend.h, lines 183-192;
src/include/mp/backend.h, lines 99-110) -/

/-- Linear constraint payload: coefficient and variable-index vectors
plus the bound interval, as struct LinearConstraint. -/
structure LinearConstraint where
  coefs : List ℚ
  vars : List Nat
  lb : ℚ
  ub : ℚ
  deriving DecidableEq, Repr

/-- Modelled from the spec: a linear defining constraint
result = Σ cᵢxᵢ (glossary, §4.3); the concrete class
LinearDefiningConstraint lives in mp/convert/std_constr.h, which is not
among the sources. -/
structure LinearDefiningConstraint where
  result_var : Nat
  coefs : List ℚ
  vars : List Nat
  deriving DecidableEq, Repr

/-- Modelled from the spec: LinearDefiningConstraint::to_linear_constraint
(declared in mp/convert/std_constr.h, not among the sources), which
rewrites result = Σ cᵢxᵢ into the plain linear constraint
result − Σ cᵢxᵢ = 0, i.e. bounds lb = ub = 0. -/
def LinearDefiningConstraint.to_linear_constraint
    (c : LinearDefiningConstraint) : LinearConstraint :=
  ⟨1 :: c.coefs.map (fun a => -a), c.result_var :: c.vars, 0, 0⟩

/-- Constraint acceptance policy, as in the ACCEPT_CONSTRAINT
declarations. -/
inductive AcceptancePolicy where
  | NotAccepted
  | Accepted
  | Recommended
  deriving DecidableEq, Repr

/-- Constraint kinds with an acceptance declaration on BasicBackend. -/
inductive ConstraintKind where
  | LinearDefining
  | Linear
  deriving DecidableEq, Repr

/-- Default acceptance table of BasicBackend, read off the
ACCEPT_CONSTRAINT(LinearDefiningConstraint, NotAccepted) and
ACCEPT_CONSTRAINT(LinearConstraint, Recommended) declarations in both
backend headers. -/
def BasicBackendAcceptance : ConstraintKind → AcceptancePolicy
  | .LinearDefining => .NotAccepted
  | .Linear => .Recommended

/-- Calls that constraint addition can dispatch to the concrete
backend. -/
inductive ConsDispatchCall where
  | linearCons (lc : LinearConstraint)
  deriving DecidableEq, Repr

/-- Shallow embedding of BasicBackend::AddConstraint(const
LinearDefiningConstraint&): it dispatches exactly one
AddConstraint(ldc.to_linear_constraint()) call. -/
def AddConstraintLDC (c : LinearDefiningConstraint) : List ConsDispatchCall :=
  [.linearCons c.to_linear_constraint]

/-- Value of a linear form Σ cᵢ·σ(vᵢ) under an assignment σ. -/
def evalForm (σ : Nat → ℚ) : List ℚ → List Nat → ℚ
  | c :: cs, v :: vs => c * σ v + evalForm σ cs vs
  | _, _ => 0

/-- Satisfaction of a plain linear constraint lb ≤ Σ cᵢxᵢ ≤ ub. -/
def satisfiesLinear (σ : Nat → ℚ) (lc : LinearConstraint) : Prop :=
  lc.lb ≤ evalForm σ lc.coefs lc.vars ∧ evalForm σ lc.coefs lc.vars ≤ lc.ub

/-- Satisfaction of a linear defining constraint result = Σ cᵢxᵢ. -/
def satisfiesLDC (σ : Nat → ℚ) (c : LinearDefiningConstraint) : Prop :=
  σ c.result_var = evalForm σ c.coefs c.vars

/-! ## Solver option machinery
(src/solvers/util/solver.h, lines 321-383 and 493-498) -/

/-- Value types an option can be registered with: the three
TypedSolverOption instantiations int, double, std::string. -/
inductive OptType where
  | tInt
  | tDbl
  | tStr
  deriving DecidableEq, Repr

/-- Modelled from the spec: the TYPE_NAME strings of
internal::OptionHelper (declared in solver.h lines 74-92; their
definitions are not among the sources).  They name the requested type in
the OptionTypeError message. -/
def typeName : OptType → String
  | .tInt => "int"
  | .tDbl => "double"
  | .tStr => "string"

/-- A typed option value. -/
inductive OptValue where
  | vInt (i : Int)
  | vDbl (q : ℚ)
  | vStr (s : String)
  deriving DecidableEq, Repr

/-- The registered type of a value. -/
def valType : OptValue → OptType
  | .vInt _ => .tInt
  | .vDbl _ => .tDbl
  | .vStr _ => .tStr

/-- A registered solver option: its name, its declared value type
(which TypedSolverOption instantiation it is), and its current value. -/
structure RegOption where
  name : String
  type : OptType
  value : OptValue
  deriving DecidableEq, Repr

/-- Lower-case an ASCII character, leaving the rest alone. -/
def lowerChar (c : Char) : Char :=
  if 65 ≤ c.toNat ∧ c.toNat ≤ 90 then Char.ofNat (c.toNat + 32) else c

/-- Modelled from the spec: the case-insensitive name comparison behind
Solver::OptionNameLess (solver.h line 321; its body is not among the
sources).  Two names are the same key when they agree up to case. -/
def nameKeyEq (a b : String) : Bool :=
  a.data.map lowerChar == b.data.map lowerChar

/-- An entry of the option map options_: the map key (the name under
which the option was first registered) and the mapped option. -/
structure OptionMapEntry where
  key : String
  opt : RegOption
  deriving DecidableEq, Repr

/-- Modelled from the spec: Solver::FindOption (declared solver.h line
359; its body is not among the sources): case-insensitive lookup by
name returning the registered option, if any. -/
def FindOption (name : String) (opts : List OptionMapEntry) : Option RegOption :=
  (opts.find? (fun e => nameKeyEq e.key name)).map (fun e => e.opt)

/-- The OptionTypeError message built in Solver::OptionTypeError
(solver.h lines 380-383): Option "name" is not of type "type". -/
def OptionTypeErrorMsg (name tname : String) : String :=
  "Option \"" ++ name ++ "\" is not of type \"" ++ tname ++ "\""

/-- Shallow embedding of Solver::GetOptionValue of type T (solver.h
lines 361-368): look the option up, attempt the dynamic_cast to
TypedSolverOption of the requested type, and throw OptionTypeError when
the cast fails (also when no option was found, since dynamic_cast of a
null pointer yields null). -/
def GetOptionValue (t : OptType) (name : String) (opts : List OptionMapEntry) :
    Except String OptValue :=
  match FindOption name opts with
  | none => .error (OptionTypeErrorMsg name (typeName t))
  | some o =>
      if o.type = t then .ok o.value
      else .error (OptionTypeErrorMsg name (typeName t))

/-- Shallow embedding of Solver::SetOptionValue of type T (solver.h
lines 370-377): look the option up, attempt the dynamic_cast, throw
OptionTypeError when the registered type differs from the value's type,
otherwise store the value. -/
def SetOptionValue (name : String) (v : OptValue) (opts : List OptionMapEntry) :
    Except String (List OptionMapEntry) :=
  match FindOption name opts with
  | none => .error (OptionTypeErrorMsg name (typeName (valType v)))
  | some o =>
      if o.type = valType v then
        .ok (opts.map (fun e =>
          if nameKeyEq e.key name then ⟨e.key, { e.opt with value := v }⟩ else e))
      else .error (OptionTypeErrorMsg name (typeName (valType v)))

/-- Shallow embedding of Solver::AddOption (solver.h lines 493-498):
the statement options_[opt->name()] = opt.get() on the case-insensitive
std::map.  When the key is already present the mapped option is
replaced (the stored key is kept, as std::map does); otherwise a new
entry is inserted.  No failure path exists. -/
def AddOption (opts : List OptionMapEntry) (o : RegOption) : List OptionMapEntry :=
  if opts.any (fun e => nameKeyEq e.key o.name) then
    opts.map (fun e => if nameKeyEq e.key o.name then ⟨e.key, o⟩ else e)
  else
    opts ++ [⟨o.name, o⟩]

/-! ## Backend lifecycle operations
(src/include/mp/convert/backend.h, lines 117-121;
src/solvers/gurobidirect/gurobibackend.cc, lines 287-298 and 440-444) -/

/-- Variable type, mp::var::Type. -/
inductive VarType where
  | continuous
  | integer
  deriving DecidableEq, Repr

/-- A variable as handed to AddVariable: bounds and type. -/
structure BackendVar where
  lb : ℚ
  ub : ℚ
  type : VarType
  deriving DecidableEq, Repr

/-- Errors the backend code can actually throw: MakeUnsupportedError
(BasicBackend placeholder methods) and the runtime error raised by
GRB_CALL on a failed native call. -/
inductive BackendError where
  | unsupported (msg : String)
  | runtime (msg : String)
  deriving DecidableEq, Repr

/-- The observable state a GurobiBackend mutates during the
modification phase: the accumulated native variables, whether the
timer sample of InitProblemModificationPhase was taken, and whether the
model was exported by FinishProblemModificationPhase. -/
structure GrbModelState where
  vars : List BackendVar
  timerStarted : Bool
  exportedTo : Option String
  deriving DecidableEq, Repr

/-- The empty model created by OpenSolver. -/
def GrbModelState.initial : GrbModelState := ⟨[], false, none⟩

/-- Lifecycle calls a driver can issue to the backend. -/
inductive LifecycleCall where
  | initModification
  | addVariable (v : BackendVar)
  | finishModification (exportFile : String)
  deriving DecidableEq, Repr

/-- Shallow embedding of the GurobiBackend lifecycle methods:
InitProblemModificationPhase only samples the clock
(stats.time = steady_clock::now()); AddVariable unconditionally appends
a native variable through GRBaddvars; FinishProblemModificationPhase
only optionally exports the model.  None of them consults any phase
state, and none has an error path other than a failed native call
(absent here, since the call arguments are always well formed). -/
def gurobiStep (s : GrbModelState) : LifecycleCall → Except BackendError GrbModelState
  | .initModification => .ok { s with timerStarted := true }
  | .addVariable v => .ok { s with vars := s.vars ++ [v] }
  | .finishModification f =>
      .ok { s with exportedTo := if f = "" then s.exportedTo else some f }

/-- Run a call sequence against the Gurobi lifecycle methods,
propagating a thrown error. -/
def runLifecycle (s : GrbModelState) : List LifecycleCall → Except BackendError GrbModelState
  | [] => .ok s
  | c :: cs =>
      match gurobiStep s c with
      | .error e => .error e
      | .ok s2 => runLifecycle s2 cs

/-- Shallow embedding of the BasicBackend placeholder AddVariable
(mp/convert/backend.h, lines 119-121): it always throws
MakeUnsupportedError, in every phase alike. -/
def basicBackendAddVariable (_s : GrbModelState) (_ : BackendVar) :
    Except BackendError GrbModelState :=
  .error (.unsupported "BasicBackend::AddVariable")

/-! ## Solve-and-report drivers -/

/-- A double value as the drivers treat it: either the quiet NaN the
objective value is initialized to, or an actual number. -/
inductive DVal where
  | NaN
  | val (q : ℚ)
  deriving DecidableEq, Repr

/-- Observable actions of the solve/report drivers, in program order. -/
inductive BEvent where
  | setInterrupter
  | printText (s : String)
  | exportModel (file : String)
  | sampleSetupTime
  | doSolve
  | sampleSolutionTime
  | convertStatus
  | handleSolution (code : Int) (msg : String) (obj : DVal)
  | sampleOutputTime
  deriving DecidableEq, Repr

/-- Inputs the concrete backend supplies to
BasicBackend::SolveAndReport of mp/convert/backend.h: the long name,
the translated status (what Impl::ConvertSolutionStatus returns), the
objective count, MIP flag, the formatted objective value, the primal
and dual vectors, the timing flag and the three clock samples in
microseconds. -/
structure DriverInputs where
  long_name : String
  convertedStatus : StatusResult
  numberOfObjectives : Nat
  isMIP : Bool
  objValueFormatted : String
  primal : List DVal
  dual : List DVal
  timingEnabled : Bool
  setupMicros : Nat
  solutionMicros : Nat
  outputMicros : Nat
  deriving DecidableEq, Repr

/-- The driver-owned members of BasicBackend
(mp/convert/backend.h, lines 255-258) with their initializers:
solve_code = 0, empty solve_status, obj_value = quiet NaN, empty
solution vectors. -/
structure DriverState where
  solve_code : Int := 0
  solve_status : String := ""
  obj_value : DVal := .NaN
  solution : List DVal := []
  dual_solution : List DVal := []
  deriving DecidableEq, Repr

/-- BasicBackend::PrepareSolve: register the interrupter, then take the
setup-time sample. -/
def PrepareSolve (s : DriverState) : DriverState × List BEvent :=
  (s, [.setInterrupter, .sampleSetupTime])

/-- BasicBackend::WrapupSolve: take the solution-time sample. -/
def WrapupSolve (s : DriverState) : DriverState × List BEvent :=
  (s, [.sampleSolutionTime])

/-- BasicBackend::ObtainSolutionStatus: store what
Impl::ConvertSolutionStatus(interrupter, solve_code) yields. -/
def ObtainSolutionStatus (inp : DriverInputs) (s : DriverState) : DriverState :=
  { s with solve_code := inp.convertedStatus.solve_code,
           solve_status := inp.convertedStatus.message }

/-- Shallow embedding of BasicBackend::ObtainAndReportSolution
(mp/convert/backend.h, lines 220-241), mirroring the writer calls in
program order: write long_name and status; when the solve code is below
sol::INFEASIBLE retrieve the primal solution and, when objectives
exist, append the objective value; terminate the line; retrieve the
dual solution unless the problem is MIP; hand everything to
HandleSolution together with the obj_value member. -/
def ObtainAndReportSolution (inp : DriverInputs) (s : DriverState) :
    DriverState × List BEvent :=
  let writer := inp.long_name ++ ": " ++ s.solve_status
  let step :=
    if s.solve_code < sol.INFEASIBLE then
      ({ s with solution := inp.primal },
       if 0 < inp.numberOfObjectives then
         writer ++ "; objective " ++ inp.objValueFormatted
       else writer)
    else (s, writer)
  let s1 := step.1
  let writer1 := step.2 ++ "\n"
  let s2 := if inp.isMIP then s1 else { s1 with dual_solution := inp.dual }
  (s2, [.handleSolution s2.solve_code writer1 s2.obj_value])

/-- Decimal digits of n padded on the left with zeros to width 6,
mirroring the fractional part of the fixed-point format. -/
def pad6 (n : Nat) : String :=
  let s := toString n
  String.mk (List.replicate (6 - s.length) (Char.ofNat 48)) ++ s

/-- Fixed-point rendering with six decimals of a duration given in
whole microseconds, the format of the {:.6f} specifier. -/
def fmt6 (micros : Nat) : String :=
  toString (micros / 1000000) ++ "." ++ pad6 (micros % 1000000)

/-- The timing block format string of BasicBackend::PrintTimingInfo
(mp/convert/backend.h, lines 243-249), instantiated at the three
durations. -/
def timingBlock (setup solution output : Nat) : String :=
  "Setup time = " ++ fmt6 setup ++ "s\n" ++
  "Solution time = " ++ fmt6 solution ++ "s\n" ++
  "Output time = " ++ fmt6 output ++ "s\n"

/-- BasicBackend::PrintTimingInfo: take the output-time sample, then
print the three-line timing block. -/
def PrintTimingInfo (inp : DriverInputs) : List BEvent :=
  [.sampleOutputTime,
   .printText (timingBlock inp.setupMicros inp.solutionMicros inp.outputMicros)]

/-- Shallow embedding of BasicBackend::SolveAndReport
(mp/convert/backend.h, lines 195-204): PrepareSolve, DoSolve,
WrapupSolve, ObtainSolutionStatus, ObtainAndReportSolution, and, only
when timing() is set, PrintTimingInfo. -/
def SolveAndReport (inp : DriverInputs) : DriverState × List BEvent :=
  let s0 : DriverState := {}
  let p1 := PrepareSolve s0
  let p2 := WrapupSolve p1.1
  let s3 := ObtainSolutionStatus inp p2.1
  let p4 := ObtainAndReportSolution inp s3
  (p4.1,
   p1.2 ++ [.doSolve] ++ p2.2 ++ [.convertStatus] ++ p4.2 ++
     (if inp.timingEnabled then PrintTimingInfo inp else []))

/-- Inputs consumed by BasicBackend::Resolve of mp/backend.h: long
name, translated status, MIP flag, objective count, the node count,
iteration count and objective value as the writer renders them, the
vectors, the timing flag and the clock samples. -/
structure ResolveInputs where
  long_name : String
  convertedStatus : StatusResult
  isMIP : Bool
  numberOfObjectives : Nat
  nodeCountStr : String
  nitersStr : String
  objValueFormatted : String
  primal : List DVal
  dual : List DVal
  timingEnabled : Bool
  setupMicros : Nat
  solutionMicros : Nat
  outputMicros : Nat
  deriving DecidableEq, Repr

/-- The report message built by the writer sequence of
BasicBackend::Resolve (mp/backend.h, lines 130-148): the status line is
terminated immediately; only below sol::INFEASIBLE are the node count
(MIP only), the iteration count and the objective value appended, and
no newline follows them. -/
def ResolveReportMessage (inp : ResolveInputs) : String :=
  let writer := inp.long_name ++ ": " ++ inp.convertedStatus.message ++ "\n"
  if inp.convertedStatus.solve_code < sol.INFEASIBLE then
    let writer1 := if inp.isMIP then writer ++ inp.nodeCountStr ++ " nodes, " else writer
    let writer2 := writer1 ++ inp.nitersStr ++ " iterations"
    if 0 < inp.numberOfObjectives then
      writer2 ++ ", objective " ++ inp.objValueFormatted
    else writer2
  else writer

/-- Shallow embedding of BasicBackend::Resolve
(mp/backend.h, lines 115-161) as its event trace: set the interrupter,
print and perform the model export, sample setup time, optimize, sample
solution time, convert the status, hand the solution off with the
locally NaN-initialized obj_value, sample output time, and print the
timing block only when timing() is set. -/
def ResolveRun (inp : ResolveInputs) : List BEvent :=
  let obj_value : DVal := .NaN
  [.setInterrupter,
   .printText "Exporting model.lp.\n",
   .exportModel "model.lp",
   .sampleSetupTime,
   .doSolve,
   .sampleSolutionTime,
   .convertStatus,
   .handleSolution inp.convertedStatus.solve_code (ResolveReportMessage inp) obj_value,
   .sampleOutputTime] ++
  (if inp.timingEnabled then
    [.printText (timingBlock inp.setupMicros inp.solutionMicros inp.outputMicros)]
   else [])


/-- SpecClaimedReportFormat follows the words of the specification for
the report message, to be compared with the embeddings of the source:
backend-long-name, colon, status message, newline, iteration count,
optional node count, optional objective value, newline. -/
def SpecClaimedReportFormat (long_name status iters : String)
    (nodes : Option String) (objective : Option String) : String :=
  long_name ++ ": " ++ status ++ "\n" ++ iters ++ " iterations" ++
  (match nodes with
   | some nd => ", " ++ nd ++ " nodes"
   | none => "") ++
  (match objective with
   | some ov => ", objective " ++ ov
   | none => "") ++ "\n"

/-! ## Helper lemmas -/

theorem evalForm_neg (σ : Nat → ℚ) (cs : List ℚ) (vs : List Nat) :
    evalForm σ (cs.map (fun a => -a)) vs = -evalForm σ cs vs := by
  induction cs generalizing vs with
  | nil => simp [evalForm]
  | cons c cs ih =>
      cases vs with
      | nil => simp [evalForm]
      | cons v vs => simp [evalForm, ih]; ring

theorem find?_append_of_none {α : Type} (p : α → Bool) (l₁ l₂ : List α)
    (h : l₁.find? p = none) : (l₁ ++ l₂).find? p = l₂.find? p := by
  induction l₁ with
  | nil => rfl
  | cons a l ih =>
      cases hp : p a with
      | true => rw [List.find?_cons_of_pos _ hp] at h; exact absurd h (by simp)
      | false =>
          rw [List.find?_cons_of_neg _ (by simp [hp])] at h
          rw [List.cons_append, List.find?_cons_of_neg _ (by simp [hp])]
          exact ih h

theorem find?_map_replace (o : RegOption) (opts : List OptionMapEntry)
    (h : opts.any (fun e => nameKeyEq e.key o.name) = true) :
    ((opts.map (fun e =>
        if nameKeyEq e.key o.name then ⟨e.key, o⟩ else e)).find?
      (fun e => nameKeyEq e.key o.name)).map (fun e => e.opt) = some o := by
  induction opts with
  | nil => simp at h
  | cons e es ih =>
      cases hk : nameKeyEq e.key o.name with
      | true =>
          rw [List.map_cons, if_pos hk]
          have hfind : List.find? (fun x => nameKeyEq x.key o.name)
              ((⟨e.key, o⟩ : OptionMapEntry) ::
                es.map (fun x =>
                  if nameKeyEq x.key o.name then ⟨x.key, o⟩ else x)) =
              some ⟨e.key, o⟩ := List.find?_cons_of_pos _ hk
          rw [hfind]
          rfl
      | false =>
          have htail : es.any (fun x => nameKeyEq x.key o.name) = true := by
            rcases List.any_eq_true.mp h with ⟨x, hx, hpx⟩
            rcases List.mem_cons.mp hx with hhead | htl
            · rw [hhead] at hpx; rw [hk] at hpx; exact absurd hpx (by simp)
            · exact List.any_eq_true.mpr ⟨x, htl, hpx⟩
          rw [List.map_cons, if_neg (by simp [hk])]
          have hfind : List.find? (fun x => nameKeyEq x.key o.name)
              (e :: es.map (fun x =>
                  if nameKeyEq x.key o.name then ⟨x.key, o⟩ else x)) =
              List.find? (fun x => nameKeyEq x.key o.name)
                (es.map (fun x =>
                  if nameKeyEq x.key o.name then ⟨x.key, o⟩ else x)) :=
            List.find?_cons_of_neg _ (by simp [hk])
          rw [hfind]
          exact ih htail

theorem findOption_addOption (opts : List OptionMapEntry) (o : RegOption) :
    FindOption o.name (AddOption opts o) = some o := by
  unfold AddOption
  by_cases hany : opts.any (fun e => nameKeyEq e.key o.name) = true
  · rw [if_pos hany]
    exact find?_map_replace o opts hany
  · rw [if_neg hany]
    have h2 : opts.any (fun e => nameKeyEq e.key o.name) = false := by
      revert hany; cases opts.any (fun e => nameKeyEq e.key o.name) <;> simp
    unfold FindOption
    rw [find?_append_of_none _ opts _ (List.find?_eq_none.mpr (fun e he => by
      have := List.any_eq_false.mp h2 e he
      simpa using this))]
    have hfind : List.find? (fun e => nameKeyEq e.key o.name)
        [(⟨o.name, o⟩ : OptionMapEntry)] = some ⟨o.name, o⟩ :=
      List.find?_cons_of_pos _ (by simp [nameKeyEq])
    rw [hfind]
    rfl


/-! ## Claim theorems -/

/-- C1, counterexample: with the interrupter flag set and native code
optimal, GurobiBackend::ConvertSolutionStatus still returns the
Solved-Optimal result, not Interrupted — the interrupter is consulted
only in the default branch of the switch.  The same holds for the
ilogcp status switch. -/
theorem interrupted_optimal_still_optimal_counterexample :
    ConvertSolutionStatus true .optimal 0 = ⟨sol.SOLVED, "optimal solution"⟩ ∧
    ConvertSolutionStatus true .optimal 0 ≠ ⟨sol.INTERRUPTED, "interrupted"⟩ ∧
    IlogConvertStatus true .optimal = ⟨0, "optimal solution"⟩ := by
  refine ⟨rfl, ?_, rfl⟩
  intro h
  have h2 := congrArg StatusResult.solve_code h
  simp [ConvertSolutionStatus, sol.SOLVED, sol.INTERRUPTED] at h2

/-- C1, amended: interruption does not take priority for every native
code; it takes priority exactly in the branches whose source tests the
flag.  Exhaustively over the native statuses: in the Gurobi translator
only the default (unmapped) branch honours the flag, while the five
explicitly mapped codes (optimal, infeasible, unbounded,
infeasible-or-unbounded, numeric) return their mapped status with the
flag set; in the ilogcp translator the Unknown/default and Feasible
branches honour the flag, while the five remaining mapped codes
(optimal, infeasible, unbounded, infeasible-or-unbounded, error)
ignore it.  In particular native code optimal plus interrupted flag
yields Solved-Optimal, not Interrupted. -/
theorem interrupt_priority_exactly_in_flag_tested_branches :
    ∀ (c : Int) (n : Nat),
      ConvertSolutionStatus true (.other c) n = ⟨sol.INTERRUPTED, "interrupted"⟩ ∧
      ConvertSolutionStatus true .optimal n = ⟨sol.SOLVED, "optimal solution"⟩ ∧
      ConvertSolutionStatus true .infeasible n = ⟨sol.INFEASIBLE, "infeasible problem"⟩ ∧
      ConvertSolutionStatus true .unbounded n = ⟨sol.UNBOUNDED, "unbounded problem"⟩ ∧
      ConvertSolutionStatus true .infOrUnbd n =
        ⟨sol.INFEASIBLE + 1, "infeasible or unbounded problem"⟩ ∧
      ConvertSolutionStatus true .numeric n = ⟨sol.FAILURE, "error"⟩ ∧
      IlogConvertStatus true .unknown = ⟨600, "interrupted"⟩ ∧
      IlogConvertStatus true (.other c) = ⟨600, "interrupted"⟩ ∧
      IlogConvertStatus true .feasible = ⟨600, "interrupted"⟩ ∧
      IlogConvertStatus true .optimal = ⟨0, "optimal solution"⟩ ∧
      IlogConvertStatus true .infeasible = ⟨200, "infeasible problem"⟩ ∧
      IlogConvertStatus true .unbounded = ⟨300, "unbounded problem"⟩ ∧
      IlogConvertStatus true .infeasibleOrUnbounded =
        ⟨201, "infeasible or unbounded problem"⟩ ∧
      IlogConvertStatus true .error = ⟨500, "error"⟩ := by
  intro c n
  exact ⟨rfl, rfl, rfl, rfl, rfl, rfl, rfl, rfl, rfl, rfl, rfl, rfl, rfl, rfl⟩

/-- C5, counterexample: an unmapped native code (999) with a nonzero
solution count and no interrupt translates to the Feasible-Uncertain
result, not to an Unknown status; and even the unknown-result branch
returns the fixed message with the native code not echoed. -/
theorem unmapped_code_not_unknown_counterexample :
    ConvertSolutionStatus false (.other 999) 1 = ⟨sol.UNCERTAIN, "feasible solution"⟩ ∧
    sol.UNCERTAIN ≠ sol.FAILURE + 1 ∧
    (ConvertSolutionStatus false (.other 999) 0).message = "unknown solution status" := by
  refine ⟨rfl, ?_, rfl⟩
  intro h
  simp [sol.UNCERTAIN, sol.FAILURE] at h

/-- C5, amended: a native code outside the explicitly mapped set never
translates to Solved-Optimal; its translation is independent of the
particular native code (so the code is not echoed in the message): the
default branch yields Interrupted, Feasible-Uncertain, or the
unknown-solution result only. -/
theorem unmapped_code_never_optimal :
    ∀ (c c₂ : Int) (n : Nat) (i : Bool),
      (ConvertSolutionStatus i (.other c) n).solve_code ≠ sol.SOLVED ∧
      ConvertSolutionStatus i (.other c) n = ConvertSolutionStatus i (.other c₂) n ∧
      (IlogConvertStatus i (.other c)).solve_code ≠ 0 ∧
      IlogConvertStatus i (.other c) = IlogConvertStatus i (.other c₂) := by
  intro c c₂ n i
  cases i with
  | true =>
      refine ⟨?_, rfl, ?_, rfl⟩ <;> simp [ConvertSolutionStatus, IlogConvertStatus,
        sol.SOLVED, sol.INTERRUPTED]
  | false =>
      by_cases hn : 0 < n
      · refine ⟨?_, rfl, ?_, rfl⟩ <;>
          simp [ConvertSolutionStatus, IlogConvertStatus, hn,
            sol.SOLVED, sol.UNCERTAIN]
      · refine ⟨?_, rfl, ?_, rfl⟩ <;>
          simp [ConvertSolutionStatus, IlogConvertStatus, hn,
            sol.SOLVED, sol.FAILURE]

/-- C2, counterexample: a call sequence that violates the claimed
lifecycle state machine — AddVariable after
FinishProblemModificationPhase — runs to completion with no error of
any kind, and the late AddVariable takes effect (two variables end up
in the model): it neither raises a BackendLifecycleViolation nor
no-ops. -/
theorem lifecycle_violation_silently_succeeds :
    runLifecycle GrbModelState.initial
      [.initModification, .addVariable ⟨0, 10, .continuous⟩,
       .finishModification "", .addVariable ⟨0, 1, .integer⟩] =
    .ok ⟨[⟨0, 10, .continuous⟩, ⟨0, 1, .integer⟩], true, none⟩ := rfl

/-- C2, amended: the backends perform no lifecycle-state checking at
all: every call sequence against the Gurobi lifecycle methods runs
without raising any error (so no BackendLifecycleViolation exists), and
AddVariable appends its variable in any phase; the only failures in the
basic layer are the per-method MakeUnsupportedError placeholders, which
throw identically in every phase. -/
theorem no_lifecycle_state_checking :
    (∀ (s : GrbModelState) (cs : List LifecycleCall),
       ∃ s2, runLifecycle s cs = .ok s2) ∧
    (∀ (s : GrbModelState) (v : BackendVar),
       gurobiStep s (.addVariable v) = .ok { s with vars := s.vars ++ [v] }) ∧
    (∀ (s : GrbModelState) (v : BackendVar),
       basicBackendAddVariable s v =
         .error (.unsupported "BasicBackend::AddVariable")) := by
  refine ⟨?_, fun s v => rfl, fun s v => rfl⟩
  intro s cs
  induction cs generalizing s with
  | nil => exact ⟨s, rfl⟩
  | cons c cs ih =>
      cases c with
      | initModification => exact ih _
      | addVariable v => exact ih _
      | finishModification f => exact ih _

/-- C3: for an objective with no opaque nonlinear sub-expression, the
dispatch in BasicBackend::AddObjective follows the unzipped linear
part: with no extra info attached exactly one AddLinearObjective call
is made carrying the unzipped coefficient/variable-index vectors, and
with a quadratic term set attached exactly one AddQuadraticObjective
call is made carrying both the linear and the quadratic parts — so the
dispatch on the extra-info pointer alone decides whether an attached
all-zero-coefficient quadratic term set classifies as Quadratic. -/
theorem addObjective_classification_dispatch :
    ∀ (o : Objective), o.nonlinear_expr = none →
      (o.p_extra_info = none →
        AddObjective o =
          [.linearObj ⟨o.sense, (LinearExprUnzipper o.linear_expr).1,
                       (LinearExprUnzipper o.linear_expr).2⟩]) ∧
      (∀ qt, o.p_extra_info = some qt →
        AddObjective o =
          [.quadraticObj ⟨⟨o.sense, (LinearExprUnzipper o.linear_expr).1,
                           (LinearExprUnzipper o.linear_expr).2⟩, qt⟩]) := by
  intro o hnl
  constructor
  · intro hex
    simp [AddObjective, hnl, hex]
  · intro qt hex
    simp [AddObjective, hnl, hex]

/-- C3, witness: a concrete objective min x₀ with an attached all-zero
quadratic term set has no nonlinear expression, and dispatches exactly
one AddQuadraticObjective call carrying the unzipped linear part and
the zero-coefficient quadratic terms. -/
theorem addObjective_classification_dispatch_witness :
    (Objective.mk .MIN [(1, 0)] none (some ⟨[0], [0], [0]⟩)).nonlinear_expr = none ∧
    AddObjective (Objective.mk .MIN [(1, 0)] none (some ⟨[0], [0], [0]⟩)) =
      [.quadraticObj ⟨⟨.MIN, [1], [0]⟩, ⟨[0], [0], [0]⟩⟩] :=
  ⟨rfl, by
    simpa using
      (addObjective_classification_dispatch
        (Objective.mk .MIN [(1, 0)] none (some ⟨[0], [0], [0]⟩)) rfl).2
        ⟨[0], [0], [0]⟩ rfl⟩

/-- C4: under the default acceptance table the LinearDefiningConstraint
kind is NotAccepted and LinearConstraint is Recommended; adding a
linear defining constraint result = Σ cᵢxᵢ dispatches exactly one
AddConstraint call carrying the rewritten plain linear constraint
result − Σ cᵢxᵢ = 0 (to_linear_constraint), and the rewrite does not
alter the feasible set: an assignment satisfies the defining constraint
iff it satisfies the rewritten linear constraint. -/
theorem ldc_rewrite_dispatch_preserves_feasible_set :
    BasicBackendAcceptance .LinearDefining = .NotAccepted ∧
    BasicBackendAcceptance .Linear = .Recommended ∧
    (∀ c : LinearDefiningConstraint,
       AddConstraintLDC c = [.linearCons c.to_linear_constraint]) ∧
    (∀ c : LinearDefiningConstraint,
       c.to_linear_constraint =
         ⟨1 :: c.coefs.map (fun a => -a), c.result_var :: c.vars, 0, 0⟩) ∧
    (∀ (σ : Nat → ℚ) (c : LinearDefiningConstraint),
       satisfiesLDC σ c ↔ satisfiesLinear σ c.to_linear_constraint) := by
  refine ⟨rfl, rfl, fun c => rfl, fun c => rfl, ?_⟩
  intro σ c
  unfold satisfiesLDC satisfiesLinear LinearDefiningConstraint.to_linear_constraint
  simp only [evalForm, evalForm_neg, one_mul]
  constructor
  · intro h
    rw [h]
    simp
  · intro h
    have h1 := h.1
    have h2 := h.2
    linarith

/-- C6, counterexample: for a completed MIP solve with native status
optimal, the message BasicBackend::Resolve hands to the solution
handler places the node count before the iteration count and carries no
trailing newline, so it differs from the claimed verbatim format
(iterations first, then nodes, then a final newline). -/
theorem report_format_counterexample :
    ResolveReportMessage
      ⟨"Gurobi 9.1.0", ⟨0, "optimal solution"⟩, true, 1, "5", "10", "3.5",
       [], [], false, 0, 0, 0⟩ =
      "Gurobi 9.1.0: optimal solution\n5 nodes, 10 iterations, objective 3.5" ∧
    SpecClaimedReportFormat "Gurobi 9.1.0" "optimal solution" "10" (some "5") (some "3.5") =
      "Gurobi 9.1.0: optimal solution\n10 iterations, 5 nodes, objective 3.5\n" ∧
    ResolveReportMessage
      ⟨"Gurobi 9.1.0", ⟨0, "optimal solution"⟩, true, 1, "5", "10", "3.5",
       [], [], false, 0, 0, 0⟩ ≠
    SpecClaimedReportFormat "Gurobi 9.1.0" "optimal solution" "10" (some "5") (some "3.5") := by
  refine ⟨rfl, rfl, ?_⟩
  decide

/-- C6, amended: the message handed to the solution handler is, for the
older driver (BasicBackend::Resolve), the status line terminated by a
newline followed — only when the solve code is below sol::INFEASIBLE —
by the node count with " nodes, " (MIP only), then the iteration count
with " iterations", then optionally ", objective " and the value, with
no trailing newline; the convert-layer driver
(ObtainAndReportSolution) instead hands over exactly one HandleSolution
call whose message is the status line, optionally "; objective " and
the value, and a final newline, with no iteration or node counts at
all. -/
theorem report_message_actual_format :
    (∀ inp : ResolveInputs,
       ResolveReportMessage inp =
         inp.long_name ++ ": " ++ inp.convertedStatus.message ++ "\n" ++
         (if inp.convertedStatus.solve_code < sol.INFEASIBLE then
            (if inp.isMIP then inp.nodeCountStr ++ " nodes, " else "") ++
            inp.nitersStr ++ " iterations" ++
            (if 0 < inp.numberOfObjectives then
               ", objective " ++ inp.objValueFormatted
             else "")
          else "")) ∧
    (∀ (inp : DriverInputs) (s : DriverState),
       (ObtainAndReportSolution inp s).2 =
         [.handleSolution s.solve_code
            (inp.long_name ++ ": " ++ s.solve_status ++
             (if s.solve_code < sol.INFEASIBLE then
                (if 0 < inp.numberOfObjectives then
                   "; objective " ++ inp.objValueFormatted
                 else "")
              else "") ++ "\n")
            s.obj_value]) := by
  constructor
  · intro inp
    simp only [ResolveReportMessage]
    split_ifs <;>
      simp only [String.append_assoc, String.append_empty, String.empty_append]
  · intro inp s
    simp only [ObtainAndReportSolution]
    split_ifs <;>
      simp only [String.append_assoc, String.append_empty, String.empty_append]

/-- C9: the event trace of BasicBackend::SolveAndReport shows that the
setup-time sample immediately precedes the solve, the solution-time
sample immediately follows it, and the output-time sample follows the
HandleSolution hand-off; when timing() is set, exactly the block
Setup time/Solution time/Output time with six-decimal fixed-point
durations is printed after reporting, and when timing() is not set no
such block (and no output-time sample) occurs.  The fmt6 conjuncts pin
the six-decimal rendering. -/
theorem timing_block_brackets_phases :
    ∀ inp : DriverInputs,
      (SolveAndReport inp).2 =
        [.setInterrupter, .sampleSetupTime, .doSolve, .sampleSolutionTime,
         .convertStatus,
         .handleSolution inp.convertedStatus.solve_code
           (inp.long_name ++ ": " ++ inp.convertedStatus.message ++
            (if inp.convertedStatus.solve_code < sol.INFEASIBLE then
               (if 0 < inp.numberOfObjectives then
                  "; objective " ++ inp.objValueFormatted
                else "")
             else "") ++ "\n")
           DVal.NaN] ++
        (if inp.timingEnabled then
           [.sampleOutputTime,
            .printText ("Setup time = " ++ fmt6 inp.setupMicros ++ "s\n" ++
                        "Solution time = " ++ fmt6 inp.solutionMicros ++ "s\n" ++
                        "Output time = " ++ fmt6 inp.outputMicros ++ "s\n")]
         else []) ∧
      fmt6 1500000 = "1.500000" ∧ fmt6 42 = "0.000042" := by
  intro inp
  refine ⟨?_, rfl, rfl⟩
  simp only [SolveAndReport, PrepareSolve, WrapupSolve, ObtainSolutionStatus,
    ObtainAndReportSolution, PrintTimingInfo, timingBlock]
  split_ifs <;>
    simp only [List.cons_append, List.nil_append, List.append_nil,
      String.append_assoc, String.append_empty, String.empty_append]

/-- C10: every HandleSolution invocation either driver makes passes the
quiet-NaN objective value: obj_value is initialized to NaN and never
assigned before the hand-off, in the convert-layer SolveAndReport and
in the older Resolve alike. -/
theorem handle_solution_obj_value_always_nan :
    (∀ (inp : DriverInputs) (c : Int) (m : String) (o : DVal),
       BEvent.handleSolution c m o ∈ (SolveAndReport inp).2 → o = DVal.NaN) ∧
    (∀ (rinp : ResolveInputs) (c : Int) (m : String) (o : DVal),
       BEvent.handleSolution c m o ∈ ResolveRun rinp → o = DVal.NaN) := by
  constructor
  · intro inp c m o h
    simp only [SolveAndReport, PrepareSolve, WrapupSolve, ObtainSolutionStatus,
      ObtainAndReportSolution, PrintTimingInfo] at h
    split_ifs at h <;>
      simp_all [List.mem_append, List.mem_cons]
  · intro rinp c m o h
    simp only [ResolveRun] at h
    split_ifs at h <;>
      simp_all [List.mem_append, List.mem_cons]

/-- C10, witness: in the concrete trace of a solve with status ok and
no objectives, the HandleSolution event carries exactly the NaN
objective value, as the theorem instantiated at that trace confirms. -/
theorem handle_solution_obj_value_always_nan_witness :
    BEvent.handleSolution 0 "S: ok\n" DVal.NaN ∈
      (SolveAndReport ⟨"S", ⟨0, "ok"⟩, 0, false, "", [], [], false, 0, 0, 0⟩).2 ∧
    DVal.NaN = DVal.NaN :=
  ⟨by decide,
   handle_solution_obj_value_always_nan.1
     ⟨"S", ⟨0, "ok"⟩, 0, false, "", [], [], false, 0, 0, 0⟩ 0 "S: ok\n" DVal.NaN
     (by decide)⟩

/-- C7: getting or setting an option by name with a value type other
than the registered one fails with the typed OptionError message
naming the option and the requested type, and performs no coercion:
when the lookup finds an option registered at a different type, both
GetOptionValue and SetOptionValue return exactly the error
Option "name" is not of type "type-name". -/
theorem option_type_mismatch_typed_error :
    ∀ (opts : List OptionMapEntry) (name : String) (o : RegOption) (v : OptValue),
      FindOption name opts = some o → o.type ≠ valType v →
      GetOptionValue (valType v) name opts =
        .error ("Option \"" ++ name ++ "\" is not of type \"" ++
                typeName (valType v) ++ "\"") ∧
      SetOptionValue name v opts =
        .error ("Option \"" ++ name ++ "\" is not of type \"" ++
                typeName (valType v) ++ "\"") := by
  intro opts name o v hfind hty
  constructor
  · simp only [GetOptionValue, hfind]
    rw [if_neg hty]
    simp [OptionTypeErrorMsg, String.append_assoc]
  · simp only [SetOptionValue, hfind]
    rw [if_neg hty]
    simp [OptionTypeErrorMsg, String.append_assoc]

/-- C7, witness: setting the option timelimit, registered as a double,
to a string value yields exactly the typed error message naming the
option and the string type. -/
theorem option_type_mismatch_typed_error_witness :
    FindOption "timelimit"
      [⟨"timelimit", ⟨"timelimit", .tDbl, .vDbl 60⟩⟩] =
      some ⟨"timelimit", .tDbl, .vDbl 60⟩ ∧
    (RegOption.mk "timelimit" .tDbl (.vDbl 60)).type ≠ valType (.vStr "abc") ∧
    SetOptionValue "timelimit" (.vStr "abc")
      [⟨"timelimit", ⟨"timelimit", .tDbl, .vDbl 60⟩⟩] =
      .error "Option \"timelimit\" is not of type \"string\"" :=
  ⟨by decide, by decide, by
    have h := (option_type_mismatch_typed_error
      [⟨"timelimit", ⟨"timelimit", .tDbl, .vDbl 60⟩⟩] "timelimit"
      ⟨"timelimit", .tDbl, .vDbl 60⟩ (.vStr "abc") (by decide) (by decide)).2
    simpa using h⟩

/-- C8, counterexample: registering an option a second time under an
already-registered name is not an error: Solver::AddOption assigns
through the map subscript operator, so the call succeeds and silently
replaces the earlier registration, which is no longer reachable. -/
theorem addOption_duplicate_replaces_counterexample :
    AddOption (AddOption [] ⟨"testopt", .tInt, .vInt 3⟩) ⟨"testopt", .tDbl, .vDbl 1⟩ =
      [⟨"testopt", ⟨"testopt", .tDbl, .vDbl 1⟩⟩] ∧
    FindOption "testopt"
      (AddOption (AddOption [] ⟨"testopt", .tInt, .vInt 3⟩) ⟨"testopt", .tDbl, .vDbl 1⟩) =
      some ⟨"testopt", .tDbl, .vDbl 1⟩ ∧
    some (RegOption.mk "testopt" .tDbl (.vDbl 1)) ≠
      some (RegOption.mk "testopt" .tInt (.vInt 3)) := by
  refine ⟨by decide, by decide, by decide⟩

/-- C8, amended: option registration keeps at most one entry per
case-insensitive name, but a second AddOption under an existing name is
not an error: it silently replaces the earlier registration, so the
subsequent lookup finds the later option, and the map size grows only
when the name is new. -/
theorem addOption_at_most_one_replaces_silently :
    ∀ (opts : List OptionMapEntry) (o : RegOption),
      FindOption o.name (AddOption opts o) = some o ∧
      (AddOption opts o).length =
        (if opts.any (fun e => nameKeyEq e.key o.name) then opts.length
         else opts.length + 1) := by
  intro opts o
  refine ⟨findOption_addOption opts o, ?_⟩
  unfold AddOption
  split_ifs <;> simp

end AmplMp
